import Mathlib

/-!
Verification of the KCore connection-handling and request-dispatch layer.

The definitions below are a shallow embedding of the Go sources:
  * `src/pkg/kafka/kafka_connectian_handler.go` — the current per-connection
    read/decode/dispatch/encode/write loop (`kafkaStep`, `kafkaLoop`, `kafkaRun`);
  * `src/pkg/kafka/kafka_api.go` — the request dispatcher
    (`kafkaApi.Handle`, `kafkaApi.dispatch`, `kafkaApi.HandleApiVersions`);
  * `src/pkg/server/kafka_connectian_handler.go` — the older per-connection loop
    (`serverStep`, `serverLoop`, `serverRun`) and its manual response framing
    (`serverResponseFrame`);
  * `src/pkg/server/server.go` — the TCP accept loop (`acceptLoop`);
  * the `metadataManager` capability-negotiation handler.

Network I/O is modelled by explicit state passing over `NetConn`, a deterministic
script of read and write outcomes; nontermination of the Go `for` loops is
modelled with fuel.  Machine integers (`int32`, `uint32`) are modelled as
`Int`/`Nat` with explicit reduction modulo `2 ^ 32` where overflow matters.
-/

namespace KCore

/-! ## Byte-level helpers (wire format, spec section 6) -/

/-- Big-endian interpretation of a 4-byte list, as `binary.BigEndian.Uint32`.
The Go code only applies it to buffers of exactly 4 bytes. -/
def be32 (bs : List Nat) : Nat :=
  match bs with
  | [b0, b1, b2, b3] => b0 * 2 ^ 24 + b1 * 2 ^ 16 + b2 * 2 ^ 8 + b3
  | _ => 0

/-- The 4 big-endian bytes of a 32-bit unsigned value. -/
def be32bytes (n : Nat) : List Nat :=
  [n / 2 ^ 24 % 256, n / 2 ^ 16 % 256, n / 2 ^ 8 % 256, n % 256]

/-- Go `int32` conversion: wrap an integer into `[-2^31, 2^31)`. -/
def int32cast (n : Int) : Int :=
  (n + 2 ^ 31) % 2 ^ 32 - 2 ^ 31

/-- Big-endian two's-complement encoding of an `int32` value (spec: `i32_be`). -/
def int32be (i : Int) : List Nat :=
  be32bytes (i % 2 ^ 32).toNat

/-- Reinterpret an unsigned 32-bit value as a signed `int32`. -/
def sint32 (n : Nat) : Int :=
  if n < 2 ^ 31 then (n : Int) else (n : Int) - 2 ^ 32

/-! ## Connection model

A `NetConn` is a deterministic script for one TCP connection: the outcome of
each successive `Read` call and each successive `Write` call, plus a log of the
byte strings actually delivered by successful writes. -/

/-- Errors a read or write may report.  `eofErr` models `io.EOF`. -/
inductive IOError
  | eofErr
  | otherErr
deriving DecidableEq, Repr

/-- Outcome of one `conn.Read` call: the bytes the transport delivers (capped at
the requested buffer size) and an optional error. -/
structure ReadResult where
  bytes : List Nat
  err : Option IOError
deriving DecidableEq, Repr

structure NetConn where
  reads : List ReadResult
  writes : List (Option IOError)
  written : List (List Nat)
deriving DecidableEq, Repr

/-- One `conn.Read(buf)` with `buf` of size `k`: consume the next scripted read
outcome; at most `k` bytes are delivered.  An exhausted script reads as
end-of-stream. -/
def NetConn.read (c : NetConn) (k : Nat) : (List Nat × Option IOError) × NetConn :=
  match c.reads with
  | [] => (([], some IOError.eofErr), c)
  | r :: rest => ((r.bytes.take k, r.err), { c with reads := rest })

/-- One `conn.Write(bs)`: consume the next scripted write outcome.  A successful
write delivers all of `bs` (short writes are not modelled); a failed write
delivers nothing. -/
def NetConn.write (c : NetConn) (bs : List Nat) : Option IOError × NetConn :=
  match c.writes with
  | [] => (none, { c with written := c.written ++ [bs] })
  | w :: rest =>
    match w with
    | some e => (some e, { c with writes := rest })
    | none => (none, { c with writes := rest, written := c.written ++ [bs] })

/-! ## Events and exits of a connection handler run -/

/-- Observable steps of a connection-handler loop, in program order. -/
inductive Ev
  | readSize (requested got : Nat)
  | readBody (requested got : Nat)
  | decodeStep (ok : Bool)
  | handleStep (payload : List Nat)
  | handleReqStep
  | writeResp (ok : Bool)
  | closeConn
deriving DecidableEq, Repr

/-- Why a connection-handler loop stopped. -/
inductive RunExit
  | eofClean
  | readSizeErr
  | shortSizeRead
  | readBodyErr
  | shortBodyRead
  | decodeErr
  | handleErr
  | writeErr
  | fuelOut
deriving DecidableEq, Repr

/-- Result of one loop iteration: either the loop halts with an exit reason, or
it continues with the connection in a new state. -/
inductive StepRes
  | halt (evs : List Ev) (ex : RunExit) (c : NetConn)
  | next (evs : List Ev) (c : NetConn)
deriving DecidableEq, Repr

/-! ## kafka package: connection handler loop

Embedding of `kafkaConnectionHandler.run` in
`src/pkg/kafka/kafka_connectian_handler.go` (lines 63-109).  The
`RequestHandler` collaborator is a parameter, exactly as in the Go code;
`none` models a non-nil `error` return. -/

/-- One iteration of the `for` loop of the kafka-package `run`:
read the 4-byte size (an `io.EOF` returns silently, any other error or a read
of fewer than 4 bytes is logged and fatal), read `reqSize` body bytes (any
error or short read fatal), call `requestHandler.Handle`, write the response
(a write error is fatal). -/
def kafkaStep (handler : List Nat → Option (List Nat)) (c : NetConn) : StepRes :=
  let r1 := c.read 4
  let bs := r1.1.1
  let c1 := r1.2
  match r1.1.2 with
  | some IOError.eofErr => StepRes.halt [Ev.readSize 4 bs.length] RunExit.eofClean c1
  | some _ => StepRes.halt [Ev.readSize 4 bs.length] RunExit.readSizeErr c1
  | none =>
    if bs.length ≠ 4 then StepRes.halt [Ev.readSize 4 bs.length] RunExit.shortSizeRead c1
    else
      let reqSize := be32 bs
      let r2 := c1.read reqSize
      let body := r2.1.1
      let c2 := r2.2
      match r2.1.2 with
      | some _ =>
        StepRes.halt [Ev.readSize 4 4, Ev.readBody reqSize body.length] RunExit.readBodyErr c2
      | none =>
        if body.length ≠ reqSize then
          StepRes.halt [Ev.readSize 4 4, Ev.readBody reqSize body.length] RunExit.shortBodyRead c2
        else
          match handler body with
          | none =>
            StepRes.halt [Ev.readSize 4 4, Ev.readBody reqSize reqSize, Ev.handleStep body]
              RunExit.handleErr c2
          | some resp =>
            let w := c2.write resp
            match w.1 with
            | some _ =>
              StepRes.halt
                [Ev.readSize 4 4, Ev.readBody reqSize reqSize, Ev.handleStep body,
                  Ev.writeResp false]
                RunExit.writeErr w.2
            | none =>
              StepRes.next
                [Ev.readSize 4 4, Ev.readBody reqSize reqSize, Ev.handleStep body,
                  Ev.writeResp true]
                w.2

/-- The kafka-package `for` loop, with fuel bounding the number of iterations. -/
def kafkaLoop (handler : List Nat → Option (List Nat)) :
    Nat → NetConn → List Ev × RunExit × NetConn
  | 0, c => ([], RunExit.fuelOut, c)
  | fuel + 1, c =>
    match kafkaStep handler c with
    | StepRes.halt evs ex c' => (evs, ex, c')
    | StepRes.next evs c' =>
      let r := kafkaLoop handler fuel c'
      (evs ++ r.1, r.2.1, r.2.2)

/-- The kafka-package `run` entry point: the loop followed by the deferred
`conn.Close()`, which fires whenever `run` returns (i.e. on every exit other
than running out of fuel). -/
def kafkaRun (handler : List Nat → Option (List Nat)) (fuel : Nat) (c : NetConn) :
    List Ev × RunExit × NetConn :=
  let r := kafkaLoop handler fuel c
  match r.2.1 with
  | RunExit.fuelOut => r
  | _ => (r.1 ++ [Ev.closeConn], r.2.1, r.2.2)

/-! ## sarama data model

Shapes of the external codec's decoded requests and responses, as used by
`src/pkg/kafka/kafka_api.go`.  Only the fields the KCore sources touch are
modelled.  `ProtocolBody.otherBody` stands for any request body implementation
other than `*sarama.ApiVersionsRequest` (its `APIKey()` is unconstrained, so a
failed Go type assertion is representable). -/

/-- The `ApiVersions` API key, `src/unnamed/part_001` line 25 (kafka package)
and `API_VERSIONS_API_KEY` in the server package. -/
def ApiVersionsApiKey : Int := 18

/-- Modelled from the spec: the version of the capability-negotiation exchange;
the tests drive the handler at version 3 (the constant's defining file is not
among the sources). -/
def ApiVersionsRequestVersion : Int := 3

/-- Modelled from the spec: the response-header version; the tests decode
response headers at version 0 (the constant's defining file is not among the
sources). -/
def ResponseHeaderVersion : Int := 0

structure ApiVersionsRequest where
  version : Int
  clientSoftwareName : String
  clientSoftwareVersion : String
deriving DecidableEq, Repr

inductive ProtocolBody
  | apiVersionsReq (r : ApiVersionsRequest)
  | otherBody (apiKey : Int) (apiVersion : Int)
deriving DecidableEq, Repr

/-- The `APIKey()` method of a request body. -/
def ProtocolBody.APIKey : ProtocolBody → Int
  | ProtocolBody.apiVersionsReq _ => ApiVersionsApiKey
  | ProtocolBody.otherBody k _ => k

/-- A decoded `sarama.Request`. -/
structure SRequest where
  correlationID : Int
  clientID : String
  body : ProtocolBody
deriving DecidableEq, Repr

structure ApiVersionsResponseKey where
  apiKey : Int
  minVersion : Int
  maxVersion : Int
deriving DecidableEq, Repr

structure ApiVersionsResponse where
  apiKeys : List ApiVersionsResponseKey
  version : Int
  errorCode : Int
deriving DecidableEq, Repr

inductive ResponseBody
  | apiVersions (r : ApiVersionsResponse)
deriving DecidableEq, Repr

/-- A `sarama.Response` as built by the dispatcher. -/
structure SResponse where
  correlationID : Int
  version : Int
  body : ResponseBody
deriving DecidableEq, Repr

/-! ## kafka package: request dispatcher (`src/pkg/kafka/kafka_api.go`) -/

/-- `kafkaApi.HandleApiVersions` (lines 106-125): a static declaration of the
supported API keys, ignoring every argument. -/
def kafkaApi.HandleApiVersions (correlationId : Int) (clientId : String)
    (request : ApiVersionsRequest) : Except String ApiVersionsResponse :=
  Except.ok
    { apiKeys :=
        [{ apiKey := ApiVersionsApiKey,
           minVersion := ApiVersionsRequestVersion,
           maxVersion := ApiVersionsRequestVersion }],
      version := ApiVersionsRequestVersion,
      errorCode := 0 }

/-- `kafkaApi.dispatch` (lines 80-104): switch on the request's API key; for
`ApiVersionsApiKey` type-assert the body and invoke the handler, wrapping its
output with the request's correlation id; any other key has no handler. -/
def kafkaApi.dispatch (req : SRequest) : Except String SResponse :=
  if req.body.APIKey = ApiVersionsApiKey then
    match req.body with
    | ProtocolBody.apiVersionsReq r =>
      match kafkaApi.HandleApiVersions req.correlationID req.clientID r with
      | Except.ok responseBody =>
        Except.ok
          { correlationID := req.correlationID,
            version := ResponseHeaderVersion,
            body := ResponseBody.apiVersions responseBody }
      | Except.error e => Except.error ("error while handling ApiVersions request: " ++ e)
    | _ => Except.error "invalid request type"
  else Except.error "no handler found for request"

/-- `kafkaApi.Handle` (lines 52-78): decode the raw request bytes, dispatch,
encode the response.  Decoding and response encoding belong to the external
sarama codec and are parameters; `none` models a non-nil error. -/
def kafkaApi.Handle (decodeReq : List Nat → Option SRequest)
    (encodeResp : SResponse → Option (List Nat)) (encodedRequest : List Nat) :
    Option (List Nat) :=
  match decodeReq encodedRequest with
  | none => none
  | some req =>
    match kafkaApi.dispatch req with
    | Except.error _ => none
    | Except.ok resp => encodeResp resp

/-! ## server package: response framing and connection loop

Embedding of `kafkaConnectionHandler.run` in
`src/pkg/server/kafka_connectian_handler.go` (lines 68-130) and of the
`metadataManager` handler. -/

/-- `sarama.ResponseHeaderStruct` as used at lines 116-119: a length field and
the correlation id. -/
structure ResponseHeaderStruct where
  correlationID : Int
  length : Int
deriving DecidableEq, Repr

/-- Modelled from the spec: the sarama encoding of `ResponseHeaderStruct` (the
codec itself is external and absent from the sources).  Per the bit-exact wire
grammar of spec section 6 — `Frame := u32_be length | payload` and
`ResponsePayload := i32_be correlationId | body` — the encoded header is the
4-byte big-endian length field followed by the 4-byte big-endian correlation
id. -/
def encodeResponseHeader (h : ResponseHeaderStruct) : List Nat :=
  int32be h.length ++ int32be h.correlationID

/-- The complete outgoing frame written at lines 116-128: the encoded header
(whose `Length` field is set to `len(resp) + 8` as an `int32`) followed by the
encoded response body. -/
def serverResponseFrame (corrId : Int) (resp : List Nat) : List Nat :=
  encodeResponseHeader
    { correlationID := corrId, length := int32cast ((resp.length : Int) + 8) } ++ resp

/-- The 4-byte big-endian length prefix declared by a frame. -/
def declaredLength (frame : List Nat) : Nat :=
  be32 (frame.take 4)

/-- One iteration of the `for` loop of the server-package `run`: read the
4-byte size (ANY error, including end-of-stream, is logged and fatal), read
`reqSize` body bytes, decode the request (a parameter, the codec is external),
call `metadataManager.HandleRequest`, then write the header frame and the body
with BOTH write results discarded, and loop.  The header encoding cannot fail
in this model, so the encode-error return at lines 121-125 has no branch. -/
def serverStep (decodeReq : List Nat → Option SRequest)
    (handleRequest : SRequest → Option (List Nat)) (c : NetConn) : StepRes :=
  let r1 := c.read 4
  let bs := r1.1.1
  let c1 := r1.2
  match r1.1.2 with
  | some _ => StepRes.halt [Ev.readSize 4 bs.length] RunExit.readSizeErr c1
  | none =>
    if bs.length ≠ 4 then StepRes.halt [Ev.readSize 4 bs.length] RunExit.shortSizeRead c1
    else
      let reqSize := be32 bs
      let r2 := c1.read reqSize
      let body := r2.1.1
      let c2 := r2.2
      match r2.1.2 with
      | some _ =>
        StepRes.halt [Ev.readSize 4 4, Ev.readBody reqSize body.length] RunExit.readBodyErr c2
      | none =>
        if body.length ≠ reqSize then
          StepRes.halt [Ev.readSize 4 4, Ev.readBody reqSize body.length] RunExit.shortBodyRead c2
        else
          match decodeReq body with
          | none =>
            StepRes.halt [Ev.readSize 4 4, Ev.readBody reqSize reqSize, Ev.decodeStep false]
              RunExit.decodeErr c2
          | some req =>
            match handleRequest req with
            | none =>
              StepRes.halt
                [Ev.readSize 4 4, Ev.readBody reqSize reqSize, Ev.decodeStep true,
                  Ev.handleReqStep]
                RunExit.handleErr c2
            | some resp =>
              let headerBuf := encodeResponseHeader
                { correlationID := req.correlationID,
                  length := int32cast ((resp.length : Int) + 8) }
              let w1 := c2.write headerBuf
              let w2 := w1.2.write resp
              StepRes.next
                [Ev.readSize 4 4, Ev.readBody reqSize reqSize, Ev.decodeStep true,
                  Ev.handleReqStep, Ev.writeResp w1.1.isNone, Ev.writeResp w2.1.isNone]
                w2.2

/-- The server-package `for` loop, with fuel bounding the number of
iterations. -/
def serverLoop (decodeReq : List Nat → Option SRequest)
    (handleRequest : SRequest → Option (List Nat)) :
    Nat → NetConn → List Ev × RunExit × NetConn
  | 0, c => ([], RunExit.fuelOut, c)
  | fuel + 1, c =>
    match serverStep decodeReq handleRequest c with
    | StepRes.halt evs ex c' => (evs, ex, c')
    | StepRes.next evs c' =>
      let r := serverLoop decodeReq handleRequest fuel c'
      (evs ++ r.1, r.2.1, r.2.2)

/-- The server-package `run` entry point with its deferred `conn.Close()`. -/
def serverRun (decodeReq : List Nat → Option SRequest)
    (handleRequest : SRequest → Option (List Nat)) (fuel : Nat) (c : NetConn) :
    List Ev × RunExit × NetConn :=
  let r := serverLoop decodeReq handleRequest fuel c
  match r.2.1 with
  | RunExit.fuelOut => r
  | _ => (r.1 ++ [Ev.closeConn], r.2.1, r.2.2)

/-! ## metadataManager (`src/unnamed/part_001`, kafka package) -/

/-- The static `ApiVersionsResponse` value built by `metadataManager.Handle`
(lines 43-59). -/
def metadataManager.handleResponse : ApiVersionsResponse :=
  { apiKeys := [{ apiKey := ApiVersionsApiKey, minVersion := 0, maxVersion := 3 }],
    version := 3,
    errorCode := 0 }

/-- `metadataManager.Handle`: ignores the request entirely and returns the
sarama encoding (a parameter, the codec is external) of the static response. -/
def metadataManager.Handle (req : SRequest)
    (encodeResp : ApiVersionsResponse → Option (List Nat)) : Option (List Nat) :=
  encodeResp metadataManager.handleResponse

/-- `metadataManager.ShouldHandle` (lines 61-63). -/
def metadataManager.ShouldHandle (req : SRequest) : Bool :=
  req.body.APIKey = ApiVersionsApiKey

/-! ## TCP server accept loop (`src/pkg/server/server.go`, lines 64-80) -/

/-- Outcome of one `l.Accept()` call: a connection, the `net.ErrClosed`
condition (the listener was closed by `Stop`), or any other accept error. -/
inductive AcceptResult
  | accepted
  | errClosed
  | errOther
deriving DecidableEq, Repr

/-- How the accept goroutine ended. -/
inductive AcceptExit
  | normalShutdown
  | fatalError
  | stillRunning
deriving DecidableEq, Repr

/-- Observable steps of the accept loop: a connection handed to a handler
goroutine, the debug log on `net.ErrClosed`, or the error log on any other
accept failure. -/
inductive AcceptEv
  | handledConn
  | debugLog
  | errorLog
deriving DecidableEq, Repr

/-- The accept loop: on `net.ErrClosed` log at debug level and return (normal
shutdown); on any other accept error log the error and return (no retry); on a
connection, spawn a handler and loop.  An exhausted script means the loop is
still blocked in `Accept`. -/
def acceptLoop : Nat → List AcceptResult → List AcceptEv × AcceptExit
  | 0, _ => ([], AcceptExit.stillRunning)
  | _ + 1, [] => ([], AcceptExit.stillRunning)
  | _ + 1, AcceptResult.errClosed :: _ => ([AcceptEv.debugLog], AcceptExit.normalShutdown)
  | _ + 1, AcceptResult.errOther :: _ => ([AcceptEv.errorLog], AcceptExit.fatalError)
  | fuel + 1, AcceptResult.accepted :: rest =>
    let r := acceptLoop fuel rest
    (AcceptEv.handledConn :: r.1, r.2)

/-! ## Response payload codec for the correlation id (spec section 6) -/

/-- Modelled from the spec: `ResponsePayload := i32_be correlationId | body`,
with the body encoding codec-defined (hence a parameter). -/
def encodeResponsePayload (encodeBody : ResponseBody → List Nat) (r : SResponse) :
    List Nat :=
  int32be r.correlationID ++ encodeBody r.body

/-- Read the correlation id back out of an encoded response payload. -/
def decodePayloadCorrelationId (bs : List Nat) : Option Int :=
  if bs.length < 4 then none else some (sint32 (be32 (bs.take 4)))

/-! ## Trace-counting helpers -/

/-- Number of `closeConn` events in a trace. -/
def closeCount : List Ev → Nat
  | [] => 0
  | Ev.closeConn :: t => closeCount t + 1
  | _ :: t => closeCount t

/-- Checks the no-pipelining discipline along a trace: whenever the read of a
new request begins (`readSize`), the responses of ALL previously begun requests
have already been fully written.  `started` and `written` count the requests
begun and the responses successfully written so far. -/
def noPipelining : Nat → Nat → List Ev → Bool
  | _, _, [] => true
  | started, written, Ev.readSize _ _ :: rest =>
    decide (started ≤ written) && noPipelining (started + 1) written rest
  | started, written, Ev.writeResp true :: rest => noPipelining started (written + 1) rest
  | started, written, _ :: rest => noPipelining started written rest

/-- The events of a loop-iteration result. -/
def StepRes.evs : StepRes → List Ev
  | StepRes.halt evs _ _ => evs
  | StepRes.next evs _ => evs

/-- The concrete request driven through the handler by `TestAPIVersionsRequest`
in `src/pkg/kafka/kafka_api_test.go`. -/
def sampleRequest : SRequest :=
  { correlationID := 1,
    clientID := "sarama",
    body := ProtocolBody.apiVersionsReq
      { version := 3, clientSoftwareName := "sarama", clientSoftwareVersion := "1.27.0" } }

/-- The response the dispatcher builds for `sampleRequest`. -/
def sampleResponse : SResponse :=
  { correlationID := 1,
    version := ResponseHeaderVersion,
    body := ResponseBody.apiVersions
      { apiKeys :=
          [{ apiKey := ApiVersionsApiKey,
             minVersion := ApiVersionsRequestVersion,
             maxVersion := ApiVersionsRequestVersion }],
        version := ApiVersionsRequestVersion,
        errorCode := 0 } }

/-! ## Codec lemmas -/

theorem be32_be32bytes (n : Nat) (h : n < 2 ^ 32) : be32 (be32bytes n) = n := by
  simp only [be32, be32bytes]
  omega

theorem be32bytes_length (n : Nat) : (be32bytes n).length = 4 := rfl

theorem int32be_length (i : Int) : (int32be i).length = 4 := rfl

theorem sint32_be32_int32be (i : Int) (h1 : -2 ^ 31 ≤ i) (h2 : i < 2 ^ 31) :
    sint32 (be32 (int32be i)) = i := by
  have hmod : 0 ≤ i % 2 ^ 32 := Int.emod_nonneg i (by norm_num)
  have hlt : i % 2 ^ 32 < 2 ^ 32 := Int.emod_lt_of_pos i (by norm_num)
  have htoNat : ((i % 2 ^ 32).toNat : Int) = i % 2 ^ 32 := Int.toNat_of_nonneg hmod
  have hn : (i % 2 ^ 32).toNat < 2 ^ 32 := by omega
  rw [int32be, be32_be32bytes _ hn, sint32]
  split <;> omega

theorem int32cast_of_small (n : Int) (h1 : -2 ^ 31 ≤ n) (h2 : n < 2 ^ 31) :
    int32cast n = n := by
  unfold int32cast
  omega

theorem int32be_of_small (i : Int) (h0 : 0 ≤ i) (h2 : i < 2 ^ 32) :
    int32be i = be32bytes i.toNat := by
  unfold int32be
  congr 1
  omega

/-! ## Structural lemmas about the loops -/

theorem closeCount_append (a b : List Ev) :
    closeCount (a ++ b) = closeCount a + closeCount b := by
  induction a with
  | nil => simp [closeCount]
  | cons e t ih => cases e <;> simp [closeCount, ih] <;> omega

/-- Exhaustive description of the outcomes of one kafka-package loop
iteration. -/
theorem kafkaStep_cases (handler : List Nat → Option (List Nat)) (c : NetConn) :
    (∃ g ex c2, kafkaStep handler c = StepRes.halt [Ev.readSize 4 g] ex c2) ∨
    (∃ n g ex c2,
      kafkaStep handler c = StepRes.halt [Ev.readSize 4 4, Ev.readBody n g] ex c2) ∨
    (∃ n b c2, kafkaStep handler c =
      StepRes.halt [Ev.readSize 4 4, Ev.readBody n n, Ev.handleStep b] RunExit.handleErr c2) ∨
    (∃ n b c2, kafkaStep handler c =
      StepRes.halt [Ev.readSize 4 4, Ev.readBody n n, Ev.handleStep b, Ev.writeResp false]
        RunExit.writeErr c2) ∨
    (∃ n b c2, kafkaStep handler c =
      StepRes.next [Ev.readSize 4 4, Ev.readBody n n, Ev.handleStep b, Ev.writeResp true] c2) := by
  unfold kafkaStep
  rcases hr1 : c.read 4 with ⟨⟨bs, err⟩, c1⟩
  dsimp only
  cases err with
  | some e =>
    cases e
    · exact Or.inl ⟨_, _, _, rfl⟩
    · exact Or.inl ⟨_, _, _, rfl⟩
  | none =>
    by_cases h4 : bs.length = 4
    · simp only [h4, ne_eq, not_true_eq_false, if_false, ite_false]
      rcases hr2 : c1.read (be32 bs) with ⟨⟨body, berr⟩, c2⟩
      dsimp only
      cases berr with
      | some e => exact Or.inr (Or.inl ⟨_, _, _, _, rfl⟩)
      | none =>
        by_cases hb : body.length = be32 bs
        · simp only [hb, ne_eq, not_true_eq_false, if_false, ite_false]
          cases hh : handler body with
          | none =>
            dsimp only
            exact Or.inr (Or.inr (Or.inl ⟨_, _, _, rfl⟩))
          | some resp =>
            cases hw : (c2.write resp).1 with
            | some e =>
              dsimp only
              rw [hw]
              exact Or.inr (Or.inr (Or.inr (Or.inl ⟨_, _, _, rfl⟩)))
            | none =>
              dsimp only
              rw [hw]
              exact Or.inr (Or.inr (Or.inr (Or.inr ⟨_, _, _, rfl⟩)))
        · simp only [ne_eq, hb, not_false_eq_true, if_true, ite_true]
          exact Or.inr (Or.inl ⟨_, _, _, _, rfl⟩)
    · simp only [ne_eq, h4, not_false_eq_true, if_true, ite_true]
      exact Or.inl ⟨_, _, _, rfl⟩

/-- Exhaustive description of the outcomes of one server-package loop
iteration. -/
theorem serverStep_cases (decodeReq : List Nat → Option SRequest)
    (handleRequest : SRequest → Option (List Nat)) (c : NetConn) :
    (∃ g ex c2,
      serverStep decodeReq handleRequest c = StepRes.halt [Ev.readSize 4 g] ex c2) ∨
    (∃ n g ex c2, serverStep decodeReq handleRequest c =
      StepRes.halt [Ev.readSize 4 4, Ev.readBody n g] ex c2) ∨
    (∃ n c2, serverStep decodeReq handleRequest c =
      StepRes.halt [Ev.readSize 4 4, Ev.readBody n n, Ev.decodeStep false]
        RunExit.decodeErr c2) ∨
    (∃ n c2, serverStep decodeReq handleRequest c =
      StepRes.halt [Ev.readSize 4 4, Ev.readBody n n, Ev.decodeStep true, Ev.handleReqStep]
        RunExit.handleErr c2) ∨
    (∃ n w1 w2 c2, serverStep decodeReq handleRequest c =
      StepRes.next
        [Ev.readSize 4 4, Ev.readBody n n, Ev.decodeStep true, Ev.handleReqStep,
          Ev.writeResp w1, Ev.writeResp w2] c2) := by
  unfold serverStep
  rcases hr1 : c.read 4 with ⟨⟨bs, err⟩, c1⟩
  dsimp only
  cases err with
  | some e => exact Or.inl ⟨_, _, _, rfl⟩
  | none =>
    by_cases h4 : bs.length = 4
    · simp only [h4, ne_eq, not_true_eq_false, if_false, ite_false]
      rcases hr2 : c1.read (be32 bs) with ⟨⟨body, berr⟩, c2⟩
      dsimp only
      cases berr with
      | some e => exact Or.inr (Or.inl ⟨_, _, _, _, rfl⟩)
      | none =>
        by_cases hb : body.length = be32 bs
        · simp only [hb, ne_eq, not_true_eq_false, if_false, ite_false]
          cases hd : decodeReq body with
          | none =>
            dsimp only
            exact Or.inr (Or.inr (Or.inl ⟨_, _, rfl⟩))
          | some req =>
            cases hh : handleRequest req with
            | none =>
              dsimp only
              rw [hh]
              exact Or.inr (Or.inr (Or.inr (Or.inl ⟨_, _, rfl⟩)))
            | some resp =>
              dsimp only
              rw [hh]
              exact Or.inr (Or.inr (Or.inr (Or.inr ⟨_, _, _, _, rfl⟩)))
        · simp only [ne_eq, hb, not_false_eq_true, if_true, ite_true]
          exact Or.inr (Or.inl ⟨_, _, _, _, rfl⟩)
    · simp only [ne_eq, h4, not_false_eq_true, if_true, ite_true]
      exact Or.inl ⟨_, _, _, rfl⟩

theorem kafkaStep_closeCount (handler : List Nat → Option (List Nat)) (c : NetConn) :
    closeCount (kafkaStep handler c).evs = 0 := by
  rcases kafkaStep_cases handler c with ⟨g, ex, c2, h⟩ | ⟨n, g, ex, c2, h⟩ | ⟨n, b, c2, h⟩ |
    ⟨n, b, c2, h⟩ | ⟨n, b, c2, h⟩ <;> simp [h, StepRes.evs, closeCount]

theorem serverStep_closeCount (decodeReq : List Nat → Option SRequest)
    (handleRequest : SRequest → Option (List Nat)) (c : NetConn) :
    closeCount (serverStep decodeReq handleRequest c).evs = 0 := by
  rcases serverStep_cases decodeReq handleRequest c with ⟨g, ex, c2, h⟩ | ⟨n, g, ex, c2, h⟩ |
    ⟨n, c2, h⟩ | ⟨n, c2, h⟩ | ⟨n, w1, w2, c2, h⟩ <;> simp [h, StepRes.evs, closeCount]

theorem kafkaLoop_closeCount (handler : List Nat → Option (List Nat)) (fuel : Nat)
    (c : NetConn) : closeCount (kafkaLoop handler fuel c).1 = 0 := by
  induction fuel generalizing c with
  | zero => rfl
  | succ n ih =>
    have h0 := kafkaStep_closeCount handler c
    unfold kafkaLoop
    cases hs : kafkaStep handler c with
    | halt evs ex c' =>
      rw [hs] at h0
      simpa [StepRes.evs] using h0
    | next evs c' =>
      rw [hs] at h0
      simp only [StepRes.evs] at h0
      simp [closeCount_append, h0, ih c']

theorem serverLoop_closeCount (decodeReq : List Nat → Option SRequest)
    (handleRequest : SRequest → Option (List Nat)) (fuel : Nat) (c : NetConn) :
    closeCount (serverLoop decodeReq handleRequest fuel c).1 = 0 := by
  induction fuel generalizing c with
  | zero => rfl
  | succ n ih =>
    have h0 := serverStep_closeCount decodeReq handleRequest c
    unfold serverLoop
    cases hs : serverStep decodeReq handleRequest c with
    | halt evs ex c' =>
      rw [hs] at h0
      simpa [StepRes.evs] using h0
    | next evs c' =>
      rw [hs] at h0
      simp only [StepRes.evs] at h0
      simp [closeCount_append, h0, ih c']

theorem kafkaRun_exit_eq (handler : List Nat → Option (List Nat)) (fuel : Nat)
    (c : NetConn) : (kafkaRun handler fuel c).2.1 = (kafkaLoop handler fuel c).2.1 := by
  unfold kafkaRun
  cases hx : (kafkaLoop handler fuel c).2.1 <;> simp [hx]

theorem serverRun_exit_eq (decodeReq : List Nat → Option SRequest)
    (handleRequest : SRequest → Option (List Nat)) (fuel : Nat) (c : NetConn) :
    (serverRun decodeReq handleRequest fuel c).2.1 =
      (serverLoop decodeReq handleRequest fuel c).2.1 := by
  unfold serverRun
  cases hx : (serverLoop decodeReq handleRequest fuel c).2.1 <;> simp [hx]

theorem kafkaRun_trace_of_ne_fuelOut (handler : List Nat → Option (List Nat)) (fuel : Nat)
    (c : NetConn) (h : (kafkaRun handler fuel c).2.1 ≠ RunExit.fuelOut) :
    (kafkaRun handler fuel c).1 = (kafkaLoop handler fuel c).1 ++ [Ev.closeConn] := by
  rw [kafkaRun_exit_eq] at h
  unfold kafkaRun
  cases hx : (kafkaLoop handler fuel c).2.1 <;> simp [hx] <;> exact absurd hx h

theorem serverRun_trace_of_ne_fuelOut (decodeReq : List Nat → Option SRequest)
    (handleRequest : SRequest → Option (List Nat)) (fuel : Nat) (c : NetConn)
    (h : (serverRun decodeReq handleRequest fuel c).2.1 ≠ RunExit.fuelOut) :
    (serverRun decodeReq handleRequest fuel c).1 =
      (serverLoop decodeReq handleRequest fuel c).1 ++ [Ev.closeConn] := by
  rw [serverRun_exit_eq] at h
  unfold serverRun
  cases hx : (serverLoop decodeReq handleRequest fuel c).2.1 <;> simp [hx] <;>
    exact absurd hx h

theorem kafkaRun_trace_cases (handler : List Nat → Option (List Nat)) (fuel : Nat)
    (c : NetConn) :
    (kafkaRun handler fuel c).1 = (kafkaLoop handler fuel c).1 ∨
    (kafkaRun handler fuel c).1 = (kafkaLoop handler fuel c).1 ++ [Ev.closeConn] := by
  unfold kafkaRun
  cases hx : (kafkaLoop handler fuel c).2.1 <;> simp [hx]

theorem noPipelining_concat_close (l : List Ev) (s w : Nat) :
    noPipelining s w (l ++ [Ev.closeConn]) = noPipelining s w l := by
  induction l generalizing s w with
  | nil => rfl
  | cons e t ih =>
    cases e with
    | readSize r g => simp only [List.cons_append, noPipelining, List.append_eq, ih]
    | readBody r g => simp only [List.cons_append, noPipelining, List.append_eq, ih]
    | decodeStep ok => simp only [List.cons_append, noPipelining, List.append_eq, ih]
    | handleStep p => simp only [List.cons_append, noPipelining, List.append_eq, ih]
    | handleReqStep => simp only [List.cons_append, noPipelining, List.append_eq, ih]
    | writeResp ok => cases ok <;> simp only [List.cons_append, noPipelining, List.append_eq, ih]
    | closeConn => simp only [List.cons_append, noPipelining, List.append_eq, ih]

theorem kafkaLoop_noPipelining (handler : List Nat → Option (List Nat)) (fuel : Nat) :
    ∀ (c : NetConn) (s w : Nat), s ≤ w →
      noPipelining s w (kafkaLoop handler fuel c).1 = true := by
  induction fuel with
  | zero => intro c s w hw; rfl
  | succ n ih =>
    intro c s w hw
    rcases kafkaStep_cases handler c with ⟨g, ex, c2, h⟩ | ⟨m, g, ex, c2, h⟩ | ⟨m, b, c2, h⟩ |
      ⟨m, b, c2, h⟩ | ⟨m, b, c2, h⟩ <;>
      simp only [kafkaLoop, h, noPipelining, hw, decide_eq_true_eq, Bool.true_and,
        List.cons_append, List.nil_append, decide_True, if_true]
    exact ih c2 (s + 1) (w + 1) (by omega)

/-- C6: within a single connection the kafka-package handler loop enforces
strict request/response ordering: whenever the read of a new request begins,
the responses to all previously begun requests have already been fully written
to the connection (no pipelining). -/
theorem no_pipelining_within_connection (handler : List Nat → Option (List Nat))
    (fuel : Nat) (c : NetConn) :
    noPipelining 0 0 (kafkaRun handler fuel c).1 = true := by
  rcases kafkaRun_trace_cases handler fuel c with h | h <;> rw [h]
  · exact kafkaLoop_noPipelining handler fuel c 0 0 (le_refl 0)
  · rw [noPipelining_concat_close]
    exact kafkaLoop_noPipelining handler fuel c 0 0 (le_refl 0)

/-- C5: on every terminating run of either per-connection loop — whether by
clean end-of-stream or by any framing, decode, dispatch, or write error — the
connection is closed exactly once, as the final action before the entry point
returns. -/
theorem connection_closed_exactly_once (handler : List Nat → Option (List Nat))
    (decodeReq : List Nat → Option SRequest) (handleRequest : SRequest → Option (List Nat))
    (fuelK fuelS : Nat) (cK cS : NetConn)
    (hk : (kafkaRun handler fuelK cK).2.1 ≠ RunExit.fuelOut)
    (hs : (serverRun decodeReq handleRequest fuelS cS).2.1 ≠ RunExit.fuelOut) :
    closeCount (kafkaRun handler fuelK cK).1 = 1 ∧
    (kafkaRun handler fuelK cK).1.getLast? = some Ev.closeConn ∧
    closeCount (serverRun decodeReq handleRequest fuelS cS).1 = 1 ∧
    (serverRun decodeReq handleRequest fuelS cS).1.getLast? = some Ev.closeConn := by
  rw [kafkaRun_trace_of_ne_fuelOut _ _ _ hk, serverRun_trace_of_ne_fuelOut _ _ _ _ hs]
  refine ⟨?_, ?_, ?_, ?_⟩
  · rw [closeCount_append, kafkaLoop_closeCount]
    rfl
  · simp
  · rw [closeCount_append, serverLoop_closeCount]
    rfl
  · simp

theorem connection_closed_exactly_once_witness :
    closeCount (kafkaRun (fun _ => none) 1 { reads := [], writes := [], written := [] }).1 = 1 ∧
    (kafkaRun (fun _ => none) 1
        { reads := [], writes := [], written := [] }).1.getLast? = some Ev.closeConn ∧
    closeCount (serverRun (fun _ => none) (fun _ => none) 1
        { reads := [], writes := [], written := [] }).1 = 1 ∧
    (serverRun (fun _ => none) (fun _ => none) 1
        { reads := [], writes := [], written := [] }).1.getLast? = some Ev.closeConn :=
  connection_closed_exactly_once (fun _ => none) (fun _ => none) (fun _ => none) 1 1
    { reads := [], writes := [], written := [] } { reads := [], writes := [], written := [] }
    (by decide) (by decide)

/-- C8: the TCP accept loop exits silently (a debug log only, no error log),
treating the condition as a normal shutdown, when `Accept` reports the
listener-closed condition, and terminates after logging, with no retry, on
every other accept error. -/
theorem accept_loop_stops_on_first_error (fuel : Nat) (rest : List AcceptResult) :
    acceptLoop (fuel + 1) (AcceptResult.errClosed :: rest) =
      ([AcceptEv.debugLog], AcceptExit.normalShutdown) ∧
    AcceptEv.errorLog ∉ (acceptLoop (fuel + 1) (AcceptResult.errClosed :: rest)).1 ∧
    acceptLoop (fuel + 1) (AcceptResult.errOther :: rest) =
      ([AcceptEv.errorLog], AcceptExit.fatalError) := by
  refine ⟨rfl, ?_, rfl⟩
  simp [acceptLoop]

/-- C9: the capability-negotiation (ApiVersions) handlers return a static
response for every request: the result is independent of the correlation id,
client id, and request body; it always succeeds with error code 0 and a
non-empty list of supported API keys containing an entry for the ApiVersions
key itself.  The same holds for the `metadataManager` reference handler. -/
theorem api_versions_response_static :
    (∀ c1 c2 i1 i2 r1 r2,
      kafkaApi.HandleApiVersions c1 i1 r1 = kafkaApi.HandleApiVersions c2 i2 r2) ∧
    (∀ cid clid r, ∃ resp, kafkaApi.HandleApiVersions cid clid r = Except.ok resp ∧
      resp.errorCode = 0 ∧ resp.apiKeys ≠ [] ∧
      ∃ k, k ∈ resp.apiKeys ∧ k.apiKey = ApiVersionsApiKey) ∧
    metadataManager.handleResponse.errorCode = 0 ∧
    (∃ k, k ∈ metadataManager.handleResponse.apiKeys ∧ k.apiKey = ApiVersionsApiKey) ∧
    (∀ req1 req2 enc, metadataManager.Handle req1 enc = metadataManager.Handle req2 enc) := by
  refine ⟨fun _ _ _ _ _ _ => rfl, fun cid clid r => ?_, rfl, ?_, fun _ _ _ => rfl⟩
  · exact ⟨_, rfl, rfl, by decide, ⟨_, List.mem_singleton.mpr rfl, rfl⟩⟩
  · exact ⟨_, List.mem_singleton.mpr rfl, rfl⟩

/-- C4 counterexample: for the empty response body the server handler's frame
declares a length of 8, but only 4 payload bytes follow the 4-byte prefix —
the declared length does not match the payload that follows. -/
theorem length_prefix_mismatch_example :
    declaredLength (serverResponseFrame 1 []) = 8 ∧
    ((serverResponseFrame 1 []).drop 4).length = 4 ∧
    ¬ declaredLength (serverResponseFrame 1 []) =
        ((serverResponseFrame 1 []).drop 4).length := by
  decide

/-- C4 (amended): the 4-byte big-endian length prefix of the frame written by
the server-package handler equals the encoded response body length plus 8;
since the 8-byte encoded header itself contains the 4-byte length field, the
declared length exceeds the number of payload bytes following the prefix by
exactly 4. -/
theorem length_prefix_exceeds_payload_by_four (corrId : Int) (resp : List Nat)
    (h : (resp.length : Int) + 8 < 2 ^ 31) :
    declaredLength (serverResponseFrame corrId resp) = resp.length + 8 ∧
    ((serverResponseFrame corrId resp).drop 4).length = resp.length + 4 ∧
    declaredLength (serverResponseFrame corrId resp) =
      ((serverResponseFrame corrId resp).drop 4).length + 4 := by
  have hL32 : resp.length + 8 < 2 ^ 32 := by omega
  have hcast : int32cast ((resp.length : Int) + 8) = (resp.length : Int) + 8 :=
    int32cast_of_small _ (by omega) h
  have ht : ((resp.length : Int) + 8).toNat = resp.length + 8 := by omega
  have henc : int32be ((resp.length : Int) + 8) = be32bytes (resp.length + 8) := by
    rw [int32be_of_small _ (by omega) (by omega), ht]
  have h1 : declaredLength (serverResponseFrame corrId resp) = resp.length + 8 := by
    simp only [declaredLength, serverResponseFrame, encodeResponseHeader, hcast, henc]
    have htake : ((be32bytes (resp.length + 8) ++ int32be corrId) ++ resp).take 4 =
        be32bytes (resp.length + 8) := rfl
    rw [htake, be32_be32bytes _ hL32]
  have h2 : ((serverResponseFrame corrId resp).drop 4).length = resp.length + 4 := by
    simp only [serverResponseFrame, encodeResponseHeader, List.length_drop,
      List.length_append, int32be_length]
    omega
  exact ⟨h1, h2, by omega⟩

theorem length_prefix_exceeds_payload_by_four_witness :
    declaredLength (serverResponseFrame 1 []) = List.length ([] : List Nat) + 8 ∧
    ((serverResponseFrame 1 []).drop 4).length = List.length ([] : List Nat) + 4 ∧
    declaredLength (serverResponseFrame 1 []) =
      ((serverResponseFrame 1 []).drop 4).length + 4 :=
  length_prefix_exceeds_payload_by_four 1 [] (by decide)

/-- C2 (the code, at the failing input): a connection that delivers the 4-byte
length in two short reads of 2 bytes each, with no error, is treated as an
immediate failure by the kafka-package handler: after the first `Read` returns
only 2 bytes the loop logs, closes the connection, and returns, leaving the
remaining 2 prefix bytes unread and never retrying. -/
theorem size_short_read_immediately_fatal :
    kafkaRun (fun _ => some []) 5
        { reads := [{ bytes := [0, 0], err := none }, { bytes := [0, 7], err := none }],
          writes := [], written := [] } =
      ([Ev.readSize 4 2, Ev.closeConn], RunExit.shortSizeRead,
        { reads := [{ bytes := [0, 7], err := none }], writes := [], written := [] }) ∧
    serverRun (fun _ => none) (fun _ => none) 5
        { reads := [{ bytes := [0, 0], err := none }, { bytes := [0, 7], err := none }],
          writes := [], written := [] } =
      ([Ev.readSize 4 2, Ev.closeConn], RunExit.shortSizeRead,
        { reads := [{ bytes := [0, 7], err := none }], writes := [], written := [] }) := by
  constructor
  · decide
  · decide

/-- C7 (the code, at the failing input): in the server-package handler both
`conn.Write` results are discarded — after the response-header write fails the
loop continues and reads the next request; in the kafka-package handler the
same write failure terminates the loop and closes the connection. -/
theorem server_write_error_ignored_loop_continues :
    serverRun (fun _ => some { correlationID := 1, clientID := "c", body := ProtocolBody.otherBody 0 0 })
        (fun _ => some [7]) 5
        { reads := [{ bytes := [0, 0, 0, 2], err := none }, { bytes := [9, 9], err := none },
            { bytes := [0, 0, 0, 2], err := none }, { bytes := [9, 9], err := none }],
          writes := [some IOError.otherErr, none, none, none], written := [] } =
      ([Ev.readSize 4 4, Ev.readBody 2 2, Ev.decodeStep true, Ev.handleReqStep,
          Ev.writeResp false, Ev.writeResp true,
          Ev.readSize 4 4, Ev.readBody 2 2, Ev.decodeStep true, Ev.handleReqStep,
          Ev.writeResp true, Ev.writeResp true,
          Ev.readSize 4 0, Ev.closeConn], RunExit.readSizeErr,
        { reads := [], writes := [],
          written := [[7], [0, 0, 0, 9, 0, 0, 0, 1], [7]] }) ∧
    kafkaRun (fun _ => some [7]) 5
        { reads := [{ bytes := [0, 0, 0, 2], err := none }, { bytes := [9, 9], err := none }],
          writes := [some IOError.otherErr], written := [] } =
      ([Ev.readSize 4 4, Ev.readBody 2 2, Ev.handleStep [9, 9], Ev.writeResp false,
          Ev.closeConn], RunExit.writeErr,
        { reads := [], writes := [], written := [] }) := by
  constructor
  · decide
  · decide

/-- C1: for every request whose dispatch succeeds, the dispatcher wraps the
handler output together with the request's correlation identifier, so the
response carries the correlation identifier unchanged; decoding the header of
the encoded response payload recovers exactly that identifier, whatever the
codec-defined body encoding is. -/
theorem correlation_id_preserved (req : SRequest) (resp : SResponse)
    (hok : kafkaApi.dispatch req = Except.ok resp)
    (h1 : -2 ^ 31 ≤ req.correlationID) (h2 : req.correlationID < 2 ^ 31) :
    resp.correlationID = req.correlationID ∧
    ∀ encodeBody : ResponseBody → List Nat,
      decodePayloadCorrelationId (encodeResponsePayload encodeBody resp) =
        some req.correlationID := by
  have hc : resp.correlationID = req.correlationID := by
    unfold kafkaApi.dispatch at hok
    split at hok
    · cases hb : req.body with
      | apiVersionsReq r =>
        rw [hb] at hok
        simp only [kafkaApi.HandleApiVersions] at hok
        cases hok
        rfl
      | otherBody k v =>
        rw [hb] at hok
        simp at hok
    · simp at hok
  refine ⟨hc, fun encodeBody => ?_⟩
  have hlen : ¬ (encodeResponsePayload encodeBody resp).length < 4 := by
    simp only [encodeResponsePayload, List.length_append, int32be_length]
    omega
  have htake : (encodeResponsePayload encodeBody resp).take 4 =
      int32be resp.correlationID := rfl
  unfold decodePayloadCorrelationId
  rw [if_neg hlen, htake, hc, sint32_be32_int32be _ h1 h2]

theorem correlation_id_preserved_witness :
    sampleResponse.correlationID = sampleRequest.correlationID ∧
    ∀ encodeBody : ResponseBody → List Nat,
      decodePayloadCorrelationId (encodeResponsePayload encodeBody sampleResponse) =
        some sampleRequest.correlationID :=
  correlation_id_preserved sampleRequest sampleResponse rfl (by decide) (by decide)

/-- C3: a request whose message-type identifier has no registered handler makes
dispatch fail with the no-handler error; the kafka-package connection loop then
terminates, closes the connection, and never writes any response bytes for that
request. -/
theorem unregistered_key_closes_without_write
    (decodeReq : List Nat → Option SRequest) (encodeResp : SResponse → Option (List Nat))
    (body : List Nat) (req : SRequest) (fuel : Nat) (moreReads : List ReadResult)
    (ws : List (Option IOError)) (c : NetConn)
    (hc : c = { reads := { bytes := be32bytes body.length, err := none } ::
        { bytes := body, err := none } :: moreReads, writes := ws, written := [] })
    (hdec : decodeReq body = some req)
    (hkey : req.body.APIKey ≠ ApiVersionsApiKey)
    (hlen : body.length < 2 ^ 32) (hfuel : 1 ≤ fuel) :
    (kafkaRun (kafkaApi.Handle decodeReq encodeResp) fuel c).2.1 = RunExit.handleErr ∧
    (kafkaRun (kafkaApi.Handle decodeReq encodeResp) fuel c).2.2.written = [] ∧
    (kafkaRun (kafkaApi.Handle decodeReq encodeResp) fuel c).1 =
      [Ev.readSize 4 4, Ev.readBody body.length body.length, Ev.handleStep body,
        Ev.closeConn] := by
  subst hc
  obtain ⟨n, rfl⟩ : ∃ n, fuel = n + 1 := ⟨fuel - 1, by omega⟩
  have hdisp : kafkaApi.dispatch req = Except.error "no handler found for request" := by
    unfold kafkaApi.dispatch
    rw [if_neg hkey]
  have hhand : kafkaApi.Handle decodeReq encodeResp body = none := by
    unfold kafkaApi.Handle
    rw [hdec]
    dsimp only
    rw [hdisp]
  have e1 : (be32bytes body.length).take 4 = be32bytes body.length := rfl
  have e2 : (be32bytes body.length).length = 4 := rfl
  have hsz : be32 (be32bytes body.length) = body.length := be32_be32bytes _ hlen
  have hstep : kafkaStep (kafkaApi.Handle decodeReq encodeResp)
      { reads := { bytes := be32bytes body.length, err := none } ::
          { bytes := body, err := none } :: moreReads, writes := ws, written := [] } =
      StepRes.halt
        [Ev.readSize 4 4, Ev.readBody body.length body.length, Ev.handleStep body]
        RunExit.handleErr { reads := moreReads, writes := ws, written := [] } := by
    unfold kafkaStep
    simp only [NetConn.read]
    simp only [e1, e2, hsz, List.take_length, hhand, ne_eq, not_true_eq_false, if_false,
      ite_false]
  have hloop : kafkaLoop (kafkaApi.Handle decodeReq encodeResp) (n + 1)
      { reads := { bytes := be32bytes body.length, err := none } ::
          { bytes := body, err := none } :: moreReads, writes := ws, written := [] } =
      ([Ev.readSize 4 4, Ev.readBody body.length body.length, Ev.handleStep body],
        RunExit.handleErr, { reads := moreReads, writes := ws, written := [] }) := by
    unfold kafkaLoop
    rw [hstep]
  refine ⟨?_, ?_, ?_⟩ <;> simp [kafkaRun, hloop]

theorem unregistered_key_closes_without_write_witness :
    (kafkaRun (kafkaApi.Handle
        (fun _ => some { correlationID := 5, clientID := "x", body := ProtocolBody.otherBody 0 0 })
        (fun _ => some [])) 1
      { reads := [{ bytes := be32bytes 0, err := none }, { bytes := [], err := none }],
        writes := [], written := [] }).2.1 = RunExit.handleErr ∧
    (kafkaRun (kafkaApi.Handle
        (fun _ => some { correlationID := 5, clientID := "x", body := ProtocolBody.otherBody 0 0 })
        (fun _ => some [])) 1
      { reads := [{ bytes := be32bytes 0, err := none }, { bytes := [], err := none }],
        writes := [], written := [] }).2.2.written = [] ∧
    (kafkaRun (kafkaApi.Handle
        (fun _ => some { correlationID := 5, clientID := "x", body := ProtocolBody.otherBody 0 0 })
        (fun _ => some [])) 1
      { reads := [{ bytes := be32bytes 0, err := none }, { bytes := [], err := none }],
        writes := [], written := [] }).1 =
      [Ev.readSize 4 4, Ev.readBody 0 0, Ev.handleStep [], Ev.closeConn] :=
  unregistered_key_closes_without_write
    (fun _ => some { correlationID := 5, clientID := "x", body := ProtocolBody.otherBody 0 0 })
    (fun _ => some []) [] { correlationID := 5, clientID := "x", body := ProtocolBody.otherBody 0 0 }
    1 [] [] _ rfl rfl (by decide) (by decide) (by decide)

theorem kafkaRun_trace_split (handler : List Nat → Option (List Nat)) (n : Nat)
    (c : NetConn) :
    ∃ tail, (kafkaRun handler (n + 1) c).1 = (kafkaStep handler c).evs ++ tail := by
  unfold kafkaRun kafkaLoop
  cases hs : kafkaStep handler c with
  | halt evs ex c' =>
    dsimp only [StepRes.evs]
    cases ex <;>
      first
        | exact ⟨[], (List.append_nil evs).symm⟩
        | exact ⟨[Ev.closeConn], rfl⟩
  | next evs c' =>
    dsimp only [StepRes.evs]
    cases hx : (kafkaLoop handler n c').2.1 <;> simp only [hx] <;>
      first
        | exact ⟨(kafkaLoop handler n c').1, rfl⟩
        | exact ⟨(kafkaLoop handler n c').1 ++ [Ev.closeConn],
            List.append_assoc evs (kafkaLoop handler n c').1 [Ev.closeConn]⟩

theorem kafkaStep_reads_declared_size (handler : List Nat → Option (List Nat)) (L : Nat)
    (hL : L < 2 ^ 32) (bodyRes : ReadResult) (moreReads : List ReadResult)
    (ws : List (Option IOError)) (wr : List (List Nat)) :
    ∃ got tail,
      (kafkaStep handler
        { reads := { bytes := be32bytes L, err := none } :: bodyRes :: moreReads,
          writes := ws, written := wr }).evs =
      Ev.readSize 4 4 :: Ev.readBody L got :: tail := by
  have e1 : (be32bytes L).take 4 = be32bytes L := rfl
  have e2 : (be32bytes L).length = 4 := rfl
  have hsz : be32 (be32bytes L) = L := be32_be32bytes _ hL
  unfold kafkaStep
  simp only [NetConn.read]
  simp only [e1, e2, hsz, ne_eq, not_true_eq_false, if_false, ite_false]
  cases hberr : bodyRes.err with
  | some e =>
    dsimp only [StepRes.evs]
    exact ⟨_, _, rfl⟩
  | none =>
    by_cases hbl : (bodyRes.bytes.take L).length = L
    · simp only [hbl, ne_eq, not_true_eq_false, if_false, ite_false]
      cases hh : handler (bodyRes.bytes.take L) with
      | none =>
        dsimp only [StepRes.evs]
        exact ⟨_, _, rfl⟩
      | some resp =>
        cases hw : (NetConn.write
            { reads := moreReads, writes := ws, written := wr } resp).1 with
        | some e =>
          dsimp only [StepRes.evs]
          rw [hw]
          exact ⟨_, _, rfl⟩
        | none =>
          dsimp only [StepRes.evs]
          rw [hw]
          exact ⟨_, _, rfl⟩
    · simp only [ne_eq, hbl, not_false_eq_true, if_true, ite_true]
      dsimp only [StepRes.evs]
      exact ⟨_, _, rfl⟩

/-- C10: the connection handler puts no upper bound or sanity check on the
declared frame length: whatever 32-bit value the 4-byte big-endian prefix
holds, the body read is attempted with exactly that requested size; in
particular a declared length of 0 is accepted and the resulting empty payload
is handed directly to the request handler. -/
theorem frame_length_unbounded_and_zero_accepted
    (handler : List Nat → Option (List Nat)) (L : Nat) (bodyRes : ReadResult)
    (moreReads : List ReadResult) (ws : List (Option IOError)) (fuel : Nat)
    (hL : L < 2 ^ 32) (hfuel : 1 ≤ fuel) :
    (∃ got rest,
      (kafkaRun handler fuel
          { reads := { bytes := be32bytes L, err := none } :: bodyRes :: moreReads,
            writes := ws, written := [] }).1 =
        Ev.readSize 4 4 :: Ev.readBody L got :: rest) ∧
    Ev.handleStep [] ∈
      (kafkaRun handler fuel
          { reads := { bytes := be32bytes 0, err := none } ::
              { bytes := [], err := none } :: moreReads,
            writes := ws, written := [] }).1 := by
  obtain ⟨n, rfl⟩ : ∃ n, fuel = n + 1 := ⟨fuel - 1, by omega⟩
  constructor
  · obtain ⟨got, tail, hevs⟩ :=
      kafkaStep_reads_declared_size handler L hL bodyRes moreReads ws []
    obtain ⟨tl, htr⟩ := kafkaRun_trace_split handler n
      { reads := { bytes := be32bytes L, err := none } :: bodyRes :: moreReads,
        writes := ws, written := [] }
    refine ⟨got, tail ++ tl, ?_⟩
    rw [htr, hevs]
    simp [List.append_assoc]
  · have hmem : Ev.handleStep [] ∈ (kafkaStep handler
        { reads := { bytes := be32bytes 0, err := none } ::
            { bytes := [], err := none } :: moreReads,
          writes := ws, written := [] }).evs := by
      unfold kafkaStep
      simp only [NetConn.read]
      simp only [be32bytes, be32, List.take_nil]
      norm_num
      cases hh : handler [] with
      | none => simp [StepRes.evs]
      | some resp =>
        cases ws with
        | nil => simp [NetConn.write, StepRes.evs]
        | cons w tws =>
          cases w <;> simp [NetConn.write, StepRes.evs]
    obtain ⟨tl, htr⟩ := kafkaRun_trace_split handler n
      { reads := { bytes := be32bytes 0, err := none } ::
          { bytes := [], err := none } :: moreReads,
        writes := ws, written := [] }
    rw [htr]
    exact List.mem_append_left _ hmem

theorem frame_length_unbounded_and_zero_accepted_witness :
    (∃ got rest, (kafkaRun (fun _ => none) 1
        { reads := [{ bytes := be32bytes 7, err := none }, { bytes := [1, 2, 3], err := none }],
          writes := [], written := [] }).1 =
      Ev.readSize 4 4 :: Ev.readBody 7 got :: rest) ∧
    Ev.handleStep [] ∈ (kafkaRun (fun _ => none) 1
        { reads := [{ bytes := be32bytes 0, err := none }, { bytes := [], err := none }],
          writes := [], written := [] }).1 :=
  frame_length_unbounded_and_zero_accepted (fun _ => none) 7
    { bytes := [1, 2, 3], err := none } [] [] 1 (by decide) (by decide)

end KCore
